import Mathlib

/-!
Verification development for the RigExpert AA-30 serial driver
(`src/re_aa30.py` and `rigexpert_api.py`).

The Python source is shallowly embedded: the byte-oriented line framer
`get_re` becomes a step function over an explicit state, the sample loop of
`re_sample` becomes a recursive function over a scripted device, and the
numeric metric functions are embedded over the real numbers.  Serial input
is modelled as a finite list of characters; once the list is exhausted every
further one-byte read returns the empty string, exactly what pyserial's
`read(1)` does after its timeout expires.
-/

/- ## Line framer: `get_re` (re_aa30.py lines 601-636)

The Python loop is

    s = ''; string_end_flag = False; crlf_count = 0; buf = ''
    while not string_end_flag:
        buf += self.re_sp.read(1).decode()
        if len(buf) == 0:  # no characters, likely the device is not on
            return None
        if buf[-1] == '\r':
            continue
        if buf[-1] == '\n' and buf[-2] == '\r':
            crlf_count += 1
            if crlf_count == 2:
                string_end_flag = True
            continue
        if buf[-3:-1] == 'OK':
            string_end_flag = True
        s += buf[-1]
    if len(s) > 0: return s
    else: return None

Each loop iteration is one `getReStep`.  `bufRev` is `buf` reversed (so the
Python negative indices become list heads).  Note three faithful quirks:
`buf[-2]` raises `IndexError` when `buf` has length one (first byte is a bare
newline); the `'OK'` test looks at `buf[-3:-1]`, i.e. the two characters
before the newest one; and a timed-out read leaves `buf` unchanged, so the
stale last character is examined (and appended to `s`) again. -/

inductive GetReOutcome where
  | line (s : String)
  | noResponse
  | indexError
  | outOfFuel
deriving DecidableEq

structure GRState where
  input : List Char
  bufRev : List Char
  acc : List Char
  crlf : Nat
deriving DecidableEq

inductive GRStep where
  | done (o : GetReOutcome)
  | next (st : GRState)

/-- The final `return s if len(s) > 0 else None` of `get_re`. -/
def grFinish (s : List Char) : GetReOutcome :=
  if s.isEmpty then .noResponse else .line (String.mk s)

/-- Test `buf[-3:-1] == 'OK'`: the slice has length two (hence can equal
`'OK'`) only when `buf` has at least three characters, and it consists of the
third-to-last and second-to-last characters. -/
def grOkHit : List Char → Bool
  | _ :: 'K' :: 'O' :: _ => true
  | _ => false

/-- One iteration of the `get_re` while-loop. -/
def getReStep (st : GRState) : GRStep :=
  let read : Option Char × List Char :=
    match st.input with
    | [] => (none, [])
    | c :: r => (some c, r)
  let bufRev : List Char :=
    match read.1 with
    | some c => c :: st.bufRev
    | none => st.bufRev
  match bufRev with
  | [] => .done .noResponse
  | last :: prev =>
    if last = '\r' then .next ⟨read.2, bufRev, st.acc, st.crlf⟩
    else if last = '\n' then
      match prev with
      | [] => .done .indexError
      | p :: _ =>
        if p = '\r' then
          if st.crlf + 1 = 2 then .done (grFinish st.acc)
          else .next ⟨read.2, bufRev, st.acc, st.crlf + 1⟩
        else
          if grOkHit bufRev then .done (grFinish (st.acc ++ [last]))
          else .next ⟨read.2, bufRev, st.acc ++ [last], st.crlf⟩
    else
      if grOkHit bufRev then .done (grFinish (st.acc ++ [last]))
      else .next ⟨read.2, bufRev, st.acc ++ [last], st.crlf⟩

/-- Run the `get_re` loop for at most `fuel` iterations. -/
def getReRun : Nat → GRState → GetReOutcome
  | 0, _ => .outOfFuel
  | fuel + 1, st =>
    match getReStep st with
    | .done o => o
    | .next st2 => getReRun fuel st2

def getReInit (input : List Char) : GRState := ⟨input, [], [], 0⟩

/-- `get_re` on a finite input.  Every iteration that consumes a character
uses one unit of fuel, and a terminating run performs at most two further
iterations after the input is exhausted (the double-CRLF counter), so
`input.length + 3` units of fuel are enough for every terminating run;
`outOfFuel` therefore marks the runs that never terminate. -/
def get_re (input : List Char) : GetReOutcome :=
  getReRun (input.length + 3) (getReInit input)

/- ## Raw line reader: `_readline` (re_aa30.py lines 638-650)

    eol = b'\r\n'; line = bytearray()
    while True:
        c = self.re_sp.read(1)
        if c:
            line += c
            if line[-leneol:] == eol: break
        else:
            break
    return bytes(line)

A timed-out (empty) read simply ends the line, returning whatever partial
line was accumulated; there is no error outcome. -/

def readlineAux : List Char → List Char → List Char × List Char
  | acc, [] => (acc.reverse, [])
  | acc, c :: rest =>
    if c == '\n' && acc.head? == some '\r' then ((c :: acc).reverse, rest)
    else readlineAux (c :: acc) rest

/-- `_readline`: returns the line (terminator included) and the unconsumed
input. -/
def readline (input : List Char) : List Char × List Char :=
  readlineAux [] input

/- ## Scalar read of `rigexpert_api.py` (`_command_scalar`, lines 52-59)

    r = self.ser.readline()
    while len(r) == 2:  # skip ahead, the aa-30 spits out lots of blank lines
        r = self.ser.readline()
    return r[:-2]

pyserial's `readline` reads up to and including a bare `\n`. -/

def serReadline : List Char → List Char × List Char
  | [] => ([], [])
  | c :: rest =>
    if c = '\n' then ([c], rest)
    else
      let r := serReadline rest
      (c :: r.1, r.2)

def commandScalarGo : Nat → List Char → List Char
  | 0, _ => []
  | fuel + 1, inp =>
    let r := serReadline inp
    if r.1.length = 2 then commandScalarGo fuel r.2
    else r.1.take (r.1.length - 2)

/-- `_command_scalar`, as a function of the raw response bytes (the command
write itself does not affect the returned value).  Every skipped blank line
consumes two input characters, so `input.length + 1` rounds of fuel always
suffice. -/
def command_scalar (input : List Char) : List Char :=
  commandScalarGo (input.length + 1) input

/- ## Sample-line parsing inside the `re_sample` loop (re_aa30.py lines 555-584)

The loop body receives the raw bytes `x` from `_readline` and runs

    if x in ['ERROR']: ...                   # bytes vs str: always False
    if len(x) == 0 or x[0:2] == 'OK':        # bytes vs str: always False
        print('FRX completed OK'); done = True   # `done` is never read
    if len(x) != 2:
        results.append(x[:-2])
        (f, rf, zf) = x.split(b',')          # ValueError unless 3 fields
        if float(f) > 0.0:
            freqlist[n] = float(f); rx[n] = float(rf); zx[n] = float(zf)
        else:
            freqlist[n] = np.nan; rx[n] = np.nan; zx[n] = np.nan

Numbers are parsed with Python's `float`, modelled here over `ℚ` for plain
decimal literals (optional sign, digits, one optional point, surrounding
whitespace); the device only ever emits such literals. -/

/-- Python 3 equality between a `bytes` value and a `str` literal is `False`
regardless of the contents (`b'ERROR' == 'ERROR'` evaluates to `False`).
`re_sample` compares the bytes returned by `_readline` against the string
literals `'ERROR'` and `'OK'`, so both guards are dead code. -/
def bytesEqStr (_b : List Char) (_s : String) : Bool := false

def splitOnChar (sep : Char) : List Char → List (List Char)
  | [] => [[]]
  | c :: rest =>
    match splitOnChar sep rest with
    | [] => [[]]
    | f :: fs => if c = sep then [] :: f :: fs else (c :: f) :: fs

def isPyWs (c : Char) : Bool := c == ' ' || c == '\t' || c == '\r' || c == '\n'

def stripWs (l : List Char) : List Char :=
  ((l.dropWhile isPyWs).reverse.dropWhile isPyWs).reverse

def digitsToNat (l : List Char) : Nat :=
  l.foldl (fun a c => a * 10 + (c.toNat - 48)) 0

/-- The exact rational value of a decimal literal with mantissa `mant`,
`scale` digits after the point and the given sign.  Built with the core
`Rat.divInt` so that the value reduces inside the kernel. -/
def mkDec (neg : Bool) (mant scale : Nat) : ℚ :=
  Rat.divInt (if neg then -(Int.ofNat mant) else Int.ofNat mant)
    (Int.ofNat (10 ^ scale))

/-- Python's `float` applied to a plain decimal byte string: strips
surrounding whitespace, accepts an optional sign, digits and at most one
decimal point; `none` models the `ValueError` raise. -/
def pyFloat? (l : List Char) : Option ℚ :=
  let t := stripWs l
  let signedPart : Bool × List Char :=
    match t with
    | '-' :: r => (true, r)
    | '+' :: r => (false, r)
    | r => (false, r)
  match splitOnChar '.' signedPart.2 with
  | [ds] =>
    if ds.isEmpty then none
    else if ds.all Char.isDigit then
      some (mkDec signedPart.1 (digitsToNat ds) 0)
    else none
  | [ip, fp] =>
    if ip.isEmpty && fp.isEmpty then none
    else if ip.all Char.isDigit && fp.all Char.isDigit then
      some (mkDec signedPart.1 (digitsToNat ip * 10 ^ fp.length + digitsToNat fp)
        fp.length)
    else none
  | _ => none

/-- A point stored by the loop: a parsed `(frequency, R, X)` triple, or the
NaN sentinel written when the reported frequency is not positive. -/
inductive Sample where
  | valid (freq res react : ℚ)
  | invalid
deriving DecidableEq

inductive LineRes where
  | sample (s : Sample)
  | skip
  | fail
deriving DecidableEq

/-- What the body of the `re_sample` loop does with one raw line `x`,
after the two dead `bytes`-vs-`str` guards: a length-2 line (a bare CRLF) is
skipped, otherwise the line must split on commas into exactly three fields
(`ValueError` otherwise, modelled by `.fail`); the first field is parsed as a
float, a non-positive frequency stores the NaN sentinel without touching the
other two fields, and a positive frequency requires the remaining fields to
parse as floats. -/
def lineStep (x : List Char) : LineRes :=
  if x.length = 2 then .skip
  else
    match splitOnChar ',' x with
    | [a, b, c] =>
      match pyFloat? a with
      | none => .fail
      | some f =>
        if 0 < f then
          match pyFloat? b, pyFloat? c with
          | some r, some z => .sample (.valid f r z)
          | _, _ => .fail
        else .sample .invalid
    | _ => .fail

def lineProduces (x : List Char) : Bool :=
  match lineStep x with
  | .sample _ => true
  | _ => false

/-- The value of `self.stopscan` observed at iteration `n`: the cooperative
cancellation flag is cleared when the sweep starts and, once set by
`stop_scan`, stays set. `some k` means the flag is seen raised from
iteration `k` on; `none` means it is never raised. -/
def stopscanAt (cancelAt : Option Nat) (n : Nat) : Bool :=
  match cancelAt with
  | none => false
  | some k => decide (k ≤ n)

/- ## The `re_sample` sweep (re_aa30.py lines 509-589)

The device is scripted: `ackOn`/`ackFQ`/`ackSW`/`ackFRX` are the scalar
responses `get_re` hands back after the `ON`, `FQ`, `SW` and `FRX` commands
(`none` models the `None` return), and `lines` are the successive raw lines
`_readline` yields during the stream — if the script runs out, `_readline`
times out and returns the empty bytes `b''`, modelled by `[]`.  Plot updates
inside the loop, the `results` list of raw lines (dropped when an exception
propagates) and the `time.sleep` calls have no effect on the properties
below and are not modelled; the post-loop `compute_tdr` and TDR-plot calls
are modelled, because they can raise (see `postLoop`). -/

structure Device where
  ackOn : Option String
  ackFQ : Option String
  ackSW : Option String
  ackFRX : Option String
  lines : List (List Char)
deriving DecidableEq

inductive LoopOut where
  | finished (acc : List Sample) (lastParse : Option Nat)
  | stopped (acc : List Sample) (lastParse : Option Nat)
  | errorBranch (acc : List Sample)
  | valueError (acc : List Sample)
deriving DecidableEq

/-- The `for n in range(len(freqlist))` loop of `re_sample`.  `errorBranch`
is the `raise Exception("Processing canceled by user")` taken when
`x in ['ERROR']` holds (dead in Python 3, see `bytesEqStr`); `valueError` is
the uncaught `ValueError` escaping from `x.split(b',')` / `float`;
`stopped` is the `break` on the cancellation flag.  The
`len(x) == 0 or x[0:2] == 'OK'` check only assigns the local `done`, which
no other statement reads, so it has no effect on control flow.  `lp` tracks
the loop index of the most recent iteration that reached the store step: at
that iteration the locals `rtl` (reassigned to arrays of length `n`, the
slices `rx[0:n]` excluding the current point) and `pen` are rebound, which
determines whether the post-loop code raises (see `postLoop`). -/
def runLoop (dev : Device) (cancelAt : Option Nat) :
    List Nat → List Sample → Option Nat → LoopOut
  | [], acc, lp => .finished acc lp
  | n :: rest, acc, lp =>
    if stopscanAt cancelAt n then .stopped acc lp
    else if bytesEqStr (dev.lines.getD n []) "ERROR" then .errorBranch acc
    else
      match lineStep (dev.lines.getD n []) with
      | .skip => runLoop dev cancelAt rest acc lp
      | .fail => .valueError acc
      | .sample s => runLoop dev cancelAt rest (acc ++ [s]) (some n)

inductive RunOutcome where
  | ignored
  | setupFailed (stage : String)
  | errorBranch
  | parseError
  | tdrError
  | plotNameError
  | done
deriving DecidableEq

/-- Observable result of one `re_sample` call: how it returned, the sample
points stored, whether `re_off` (the `OFF` command) ran on that path, the
final value of `self.in_sampling`, and the commands written to the serial
port. -/
structure RunResult where
  outcome : RunOutcome
  samples : List Sample
  offIssued : Bool
  inSamplingAfter : Bool
  sent : List String
deriving DecidableEq

/-- The code that runs after the loop exits via completion or `break`
(re_aa30.py lines 585-589):

    self.in_sampling = False
    td, tdr = self.compute_tdr(freqlist, rtl)
    self.pl['TDR'].plot(td[1:len(tdr)], tdr[1:], pen=pen)
    self.re_off()
    return(freqlist, rx, zx, tdr.real)

`in_sampling` is cleared first, unconditionally.  The value of `rtl` here is
the pre-loop `np.zeros_like(freqlist)` (length `nfreq + 1`) if no iteration
reached the store step, otherwise the length-`n` array from the last store
iteration `n` (built from the slice `rx[0:n]`, which excludes that
iteration's own point).  `np.fft.ifft` raises `ValueError` on an empty
array, so a last store iteration at index 0 dies in `compute_tdr`; and
`pen`, bound only inside store iterations, is unbound when none ran, so the
TDR plot line raises `NameError`.  Both raises skip `re_off`. -/
def postLoop (acc : List Sample) (lp : Option Nat) : RunResult :=
  match lp with
  | none => ⟨.plotNameError, acc, false, false, ["ON", "FQ", "SW", "FRX"]⟩
  | some n =>
    if n = 0 then ⟨.tdrError, acc, false, false, ["ON", "FQ", "SW", "FRX"]⟩
    else ⟨.done, acc, true, false, ["ON", "FQ", "SW", "FRX", "OFF"]⟩

/-- `re_sample` (re_aa30.py lines 509-589).  `busy` is `self.in_sampling` on
entry; a busy session returns immediately (`return  # ignore request`).
`freqlist = np.linspace(start, end, num=nfreq+1)` has `nfreq + 1` entries, so
the loop runs over `List.range (nfreq + 1)`.  Each failed setup
acknowledgement runs `re_off`, clears `in_sampling` and raises; the
`valueError` loop exit propagates an uncaught exception, running neither;
the completion and `break` exits continue into `postLoop`. -/
def re_sample (busy : Bool) (nfreq : Nat) (dev : Device) (cancelAt : Option Nat) :
    RunResult :=
  if busy then ⟨.ignored, [], false, true, []⟩
  else if dev.ackFQ ≠ some "OK" then
    ⟨.setupFailed "frequency", [], true, false, ["ON", "FQ", "OFF"]⟩
  else if dev.ackSW ≠ some "OK" then
    ⟨.setupFailed "sweep range", [], true, false, ["ON", "FQ", "SW", "OFF"]⟩
  else if dev.ackFRX ≠ some "OK" then
    ⟨.setupFailed "frx", [], true, false, ["ON", "FQ", "SW", "FRX", "OFF"]⟩
  else
    match runLoop dev cancelAt (List.range (nfreq + 1)) [] none with
    | .finished acc lp => postLoop acc lp
    | .stopped acc lp => postLoop acc lp
    | .errorBranch acc => ⟨.errorBranch, acc, true, false, ["ON", "FQ", "SW", "FRX", "OFF"]⟩
    | .valueError acc => ⟨.parseError, acc, false, true, ["ON", "FQ", "SW", "FRX"]⟩

/-- Outcomes on which `re_sample` raises an exception to its caller. -/
def isRaised : RunOutcome → Bool
  | .setupFailed _ => true
  | .errorBranch => true
  | .parseError => true
  | .tdrError => true
  | .plotNameError => true
  | _ => false

/- Concrete device scripts used by the claims. -/

def goodLineA : List Char := String.toList "3.5,50.0,0.0\r\n"
def goodLineB : List Char := String.toList "3.6,52.0,1.0\r\n"
def goodLineC : List Char := String.toList "3.7,48.0,-1.0\r\n"

def allOkAcks (lines : List (List Char)) : Device :=
  ⟨some "OK", some "OK", some "OK", some "OK", lines⟩

def devC1 : Device := allOkAcks [goodLineA, goodLineB]

def devC4 : Device :=
  allOkAcks [goodLineA, goodLineB, String.toList "ERROR\r\n", goodLineC,
    goodLineA, goodLineB]

def devC5 : Device :=
  allOkAcks [goodLineA, String.toList "OK\r\n", goodLineB, goodLineC]

def devC6 : Device := allOkAcks [String.toList "junk\r\n"]

def devC6b : Device :=
  ⟨some "OK", some "ERROR", some "OK", some "OK", [goodLineA]⟩

def devC6c : Device := allOkAcks [goodLineA, goodLineB]

def devC9 : Device := allOkAcks [goodLineA]

/- ## Metrics: `compute_swr_and_return_loss` (re_aa30.py lines 372-395)

    rho = np.zeros(len(re))
    for i in range(len(re)):
        z = np.complex(re[i], im[i])
        rho[i] = np.abs((z - z0)/(z + z0))
        if np.abs(rho[i] - 1) < 1e-3:
            rho[i] = 1e-3
    swr = (1.0 + rho)/(1.0 - rho)
    rtl = 20. * np.log10(rho)

The floating-point arithmetic is embedded over the real numbers. -/

/-- `np.abs((z - z0)/(z + z0))`: the reflection coefficient computed in the
loop body before the clamp. -/
noncomputable def reflection_coefficient (z z0 : ℂ) : ℝ :=
  Complex.abs ((z - z0) / (z + z0))

/-- The clamp applied to each `rho[i]`: `if np.abs(rho[i] - 1) < 1e-3:
rho[i] = 1e-3`. -/
noncomputable def clampRho (r : ℝ) : ℝ :=
  if |r - 1| < 1e-3 then 1e-3 else r

/-- `swr = (1.0 + rho)/(1.0 - rho)`, applied to the clamped value. -/
noncomputable def swr (rho : ℝ) : ℝ := (1 + rho) / (1 - rho)

/-- `rtl = 20. * np.log10(rho)`, applied to the clamped value. -/
noncomputable def return_loss_db (rho : ℝ) : ℝ := 20 * Real.logb 10 rho

/-- The whole of `compute_swr_and_return_loss` on the paired `re`/`im`
arrays against the reference impedance `z0` (a real, 50 by default). -/
noncomputable def compute_swr_and_return_loss (res ims : List ℝ) (z0 : ℝ) :
    List ℝ × List ℝ :=
  let rhos := (res.zip ims).map fun p => clampRho (reflection_coefficient ⟨p.1, p.2⟩ z0)
  (rhos.map swr, rhos.map return_loss_db)

/- ## Time-domain reflectometry: `compute_tdr` (re_aa30.py lines 397-417)

    tdr = np.fft.ifft(rtl)
    ft = np.mean(np.diff(fr))   # computed but never used
    t = 1./fr
    return(t, tdr.real)
-/

/-- `np.fft.ifft` for a real input vector:
`out[m] = (1/n) * sum_k a[k] * exp(2*pi*i*m*k/n)`. -/
noncomputable def npIfft (a : List ℝ) : List ℂ :=
  (List.range a.length).map fun m =>
    ((a.length : ℂ))⁻¹ *
      ∑ k in Finset.range a.length,
        ((a.getD k 0 : ℝ) : ℂ) *
          Complex.exp (2 * Real.pi * Complex.I * m * k / a.length)

/-- `np.diff`: successive differences. -/
noncomputable def npDiff (l : List ℝ) : List ℝ :=
  (l.zip l.tail).map fun p => p.2 - p.1

/-- `np.mean`. -/
noncomputable def npMean (l : List ℝ) : ℝ := l.sum / l.length

/-- `compute_tdr`: delays are the pointwise reciprocals `1./fr` of the
frequency axis, amplitudes the real parts of `np.fft.ifft(rtl)`; the local
`ft = np.mean(np.diff(fr))` is computed and discarded. -/
noncomputable def compute_tdr (fr rtl : List ℝ) : List ℝ × List ℝ :=
  let tdr := npIfft rtl
  let _ft := npMean (npDiff fr)
  let t := fr.map fun f => 1 / f
  (t, tdr.map Complex.re)

/-- Modelled from the spec: the delay sequence is derived as
`delay_s[i] = 1 / frequency_hz[i]` pointwise, reusing the frequency axis
rather than a regular time grid. -/
noncomputable def tdrDelays_spec (fr : List ℝ) : List ℝ :=
  fr.map fun f => 1 / f

/-- Modelled from the spec: the amplitude sequence is the real component of
the inverse Fourier transform of the accumulated return-loss series. -/
noncomputable def tdrAmplitudes_spec (rtl : List ℝ) : List ℝ :=
  (npIfft rtl).map Complex.re

/-- The sample list carried by a loop exit, whichever way the loop ended. -/
def loopSamples : LoopOut → List Sample
  | .finished acc _ => acc
  | .stopped acc _ => acc
  | .errorBranch acc => acc
  | .valueError acc => acc

/-- The last-store index after running the loop over `idxs` when every
iteration reaches the store step: the last element of `idxs`, or the
incoming value when `idxs` is empty. -/
def lastIdxAfter (idxs : List Nat) (lp : Option Nat) : Option Nat :=
  match idxs with
  | [] => lp
  | n :: rest => lastIdxAfter rest (some n)

/- ## Helper lemmas -/

theorem rho_div (z z0 : ℂ) :
    reflection_coefficient z z0 = Complex.abs (z - z0) / Complex.abs (z + z0) :=
  map_div₀ Complex.abs _ _

theorem clampRho_zero : clampRho (0 : ℝ) = 0 := by
  unfold clampRho
  rw [if_neg]
  rw [show |(0 : ℝ) - 1| = 1 by simp]
  norm_num

theorem lastIdxAfter_cons (n : Nat) (rest : List Nat) (lp : Option Nat) :
    lastIdxAfter (n :: rest) lp = lastIdxAfter rest (some n) := rfl

theorem lastIdxAfter_concat (m : Nat) :
    ∀ (l : List Nat) (lp : Option Nat), lastIdxAfter (l ++ [m]) lp = some m := by
  intro l
  induction l with
  | nil => intro lp; rfl
  | cons a as ih => intro lp; exact ih (some a)

theorem postLoop_samples (acc : List Sample) (lp : Option Nat) :
    (postLoop acc lp).samples = acc := by
  cases lp with
  | none => rfl
  | some n =>
    by_cases h : n = 0
    · subst h; rfl
    · simp [postLoop, h]

theorem postLoop_some_pos (acc : List Sample) (n : Nat) (h : ¬n = 0) :
    postLoop acc (some n) =
      ⟨.done, acc, true, false, ["ON", "FQ", "SW", "FRX", "OFF"]⟩ := by
  simp [postLoop, h]

theorem runLoop_none_all (dev : Device) :
    ∀ (idxs : List Nat) (acc : List Sample) (lp : Option Nat),
      (∀ n ∈ idxs, lineProduces (dev.lines.getD n []) = true) →
      ∃ acc2, runLoop dev none idxs acc lp =
          .finished acc2 (lastIdxAfter idxs lp) ∧
        acc2.length = acc.length + idxs.length := by
  intro idxs
  induction idxs with
  | nil =>
    intro acc lp _
    refine ⟨acc, ?_, by simp⟩
    show runLoop dev none [] acc lp = .finished acc (lastIdxAfter [] lp)
    rfl
  | cons n rest ih =>
    intro acc lp h
    have hn : lineProduces (dev.lines.getD n []) = true := h n (List.mem_cons_self n rest)
    have hrest : ∀ m ∈ rest, lineProduces (dev.lines.getD m []) = true :=
      fun m hm => h m (List.mem_cons_of_mem n hm)
    unfold lineProduces at hn
    cases hls : lineStep (dev.lines.getD n []) with
    | sample s =>
      obtain ⟨acc2, h1, h2⟩ := ih (acc ++ [s]) (some n) hrest
      refine ⟨acc2, ?_, ?_⟩
      · show runLoop dev none (n :: rest) acc lp =
          .finished acc2 (lastIdxAfter (n :: rest) lp)
        unfold runLoop
        rw [if_neg (show ¬(stopscanAt none n = true) by simp [stopscanAt])]
        rw [if_neg (show ¬(bytesEqStr (dev.lines.getD n []) "ERROR" = true) by
          simp [bytesEqStr])]
        rw [hls, lastIdxAfter_cons]
        exact h1
      · simp only [List.length_append, List.length_cons, List.length_nil] at h2 ⊢
        omega
    | skip => rw [hls] at hn; simp at hn
    | fail => rw [hls] at hn; simp at hn

theorem runLoop_len_le (dev : Device) (cancelAt : Option Nat) :
    ∀ (idxs : List Nat) (acc : List Sample) (lp : Option Nat),
      (loopSamples (runLoop dev cancelAt idxs acc lp)).length ≤
        acc.length + idxs.length := by
  intro idxs
  induction idxs with
  | nil => intro acc lp; simp [runLoop, loopSamples]
  | cons n rest ih =>
    intro acc lp
    unfold runLoop
    cases hstop : stopscanAt cancelAt n with
    | true =>
      rw [if_pos rfl]
      simp only [loopSamples, List.length_cons]
      omega
    | false =>
      rw [if_neg Bool.false_ne_true]
      rw [if_neg (show ¬(bytesEqStr (dev.lines.getD n []) "ERROR" = true) by
        simp [bytesEqStr])]
      cases hls : lineStep (dev.lines.getD n []) with
      | skip =>
        show (loopSamples (runLoop dev cancelAt rest acc lp)).length ≤
          acc.length + (n :: rest).length
        have := ih acc lp
        simp only [List.length_cons]
        omega
      | fail =>
        show (loopSamples (LoopOut.valueError acc)).length ≤
          acc.length + (n :: rest).length
        simp only [loopSamples, List.length_cons]
        omega
      | sample s =>
        show (loopSamples (runLoop dev cancelAt rest (acc ++ [s]) (some n))).length ≤
          acc.length + (n :: rest).length
        have := ih (acc ++ [s]) (some n)
        simp only [List.length_append, List.length_cons, List.length_nil] at this ⊢
        omega

theorem getReRun_stuck : ∀ (fuel : Nat) (s0 : List Char),
    getReRun fuel ⟨[], ['A'], s0, 0⟩ = .outOfFuel := by
  intro fuel
  induction fuel with
  | zero => intro s0; rfl
  | succ n ih =>
    intro s0
    have h : getReRun (n + 1) ⟨[], ['A'], s0, 0⟩ =
        getReRun n ⟨[], ['A'], s0 ++ ['A'], 0⟩ := rfl
    rw [h]
    exact ih (s0 ++ ['A'])

/- ## Claims -/

/-- Claim C1, counterexample: a sweep request with `nfreq = 1` that completes
normally (no early-OK, no error, no cancellation) produces 2 sample points,
not 1 — `re_sample` builds `freqlist` with `np.linspace(..., num=nfreq+1)`
and iterates `nfreq + 1` times, so the claim "exactly n points" is false. -/
theorem sweep_count_cx :
    (re_sample false 1 devC1 none).outcome = .done ∧
    (re_sample false 1 devC1 none).samples.length = 2 ∧
    ¬((re_sample false 1 devC1 none).samples.length = 1) := by decide

/-- Claim C1, amended: for a request with `nfreq = n ≥ 1` (the spec's
request invariant `point_count > 0`) whose setup commands are acknowledged
with `OK` and whose device supplies parseable data lines, a sweep that
completes without cancellation produces exactly `n + 1` sample points (the
loop covers the `nfreq + 1` frequencies of the linspace grid, matching the
device documentation that `FRXn` outputs `n + 1` steps); any run that
returns normally produces at most `n + 1` points.  `nfreq = 0` is excluded
because there the source raises in the post-loop `np.fft.ifft` of the empty
`rtl` instead of returning, as does a cancellation whose last store
iteration was index 0 (see `postLoop`), which is why the normal-return
bound is stated conditionally on the `.done` outcome. -/
theorem sweep_count_amended (nfreq : Nat) (dev : Device)
    (hpos : 1 ≤ nfreq)
    (hFQ : dev.ackFQ = some "OK") (hSW : dev.ackSW = some "OK")
    (hFRX : dev.ackFRX = some "OK")
    (hGood : ∀ n, n < nfreq + 1 → lineProduces (dev.lines.getD n []) = true) :
    ((re_sample false nfreq dev none).outcome = .done ∧
      (re_sample false nfreq dev none).samples.length = nfreq + 1) ∧
    ∀ cancelAt, (re_sample false nfreq dev cancelAt).outcome = .done →
      (re_sample false nfreq dev cancelAt).samples.length ≤ nfreq + 1 := by
  constructor
  · obtain ⟨acc2, h1, h2⟩ := runLoop_none_all dev (List.range (nfreq + 1)) [] none
      (fun n hn => hGood n (List.mem_range.mp hn))
    have hlast : lastIdxAfter (List.range (nfreq + 1)) none = some nfreq := by
      rw [List.range_succ]
      exact lastIdxAfter_concat nfreq (List.range nfreq) none
    rw [hlast] at h1
    unfold re_sample
    rw [if_neg Bool.false_ne_true]
    rw [if_neg (by rw [hFQ]; simp), if_neg (by rw [hSW]; simp),
      if_neg (by rw [hFRX]; simp)]
    rw [h1]
    show (postLoop acc2 (some nfreq)).outcome = .done ∧
      (postLoop acc2 (some nfreq)).samples.length = nfreq + 1
    rw [postLoop_some_pos acc2 nfreq (by omega)]
    refine ⟨rfl, ?_⟩
    simpa using h2
  · intro cancelAt _
    have hle := runLoop_len_le dev cancelAt (List.range (nfreq + 1)) [] none
    unfold re_sample
    rw [if_neg Bool.false_ne_true]
    rw [if_neg (by rw [hFQ]; simp), if_neg (by rw [hSW]; simp),
      if_neg (by rw [hFRX]; simp)]
    cases hrun : runLoop dev cancelAt (List.range (nfreq + 1)) [] none with
    | finished acc lp =>
      rw [hrun] at hle
      show (postLoop acc lp).samples.length ≤ nfreq + 1
      rw [postLoop_samples]
      simpa [loopSamples] using hle
    | stopped acc lp =>
      rw [hrun] at hle
      show (postLoop acc lp).samples.length ≤ nfreq + 1
      rw [postLoop_samples]
      simpa [loopSamples] using hle
    | errorBranch acc =>
      rw [hrun] at hle
      simpa [loopSamples] using hle
    | valueError acc =>
      rw [hrun] at hle
      simpa [loopSamples] using hle

/-- Claim C1, witness for the amended theorem at `nfreq = 1` with a
two-line device script; the cancellation instance raises the flag at
iteration 2, after the loop's final iteration, so the run really returns
normally with both points. -/
theorem sweep_count_amended_wit :
    (re_sample false 1 devC1 none).samples.length = 1 + 1 ∧
    (re_sample false 1 devC1 (some 2)).samples.length ≤ 1 + 1 := by
  have h := sweep_count_amended 1 devC1 (by decide) (by decide) (by decide)
    (by decide) (by decide)
  exact ⟨h.1.2, h.2 (some 2) (by decide)⟩

/-- Claim C3, counterexample: feeding `get_re` the exact bytes
`\r\n\r\nOK\r\n` does not yield a scalar line with empty payload — the read
stops at the second CRLF with an empty accumulator and returns `None`
(modelled `noResponse`); and feeding `VALUE\r\nOK\r\n` does not yield the
line `VALUE` — it yields `VALUEOK`, because the `buf[-3:-1] == 'OK'` test
can only fire one character after the token and the CR/LF bytes are dropped
from the payload while both CRLFs are counted. -/
theorem framing_cx :
    get_re (String.toList "\r\n\r\nOK\r\n") = .noResponse ∧
    GetReOutcome.noResponse ≠ .line "" ∧
    get_re (String.toList "VALUE\r\nOK\r\n") = .line "VALUEOK" ∧
    GetReOutcome.line "VALUEOK" ≠ .line "VALUE" := by decide

/-- Claim C3, amended: on `\r\n\r\nOK\r\n` the scalar read of `get_re`
terminates at the double CRLF with an empty payload which is returned as
`None` (no line), and on `VALUE\r\nOK\r\n` it returns the single line
`VALUEOK` (trailing `OK` absorbed into the payload); the `_command_scalar`
reader of `rigexpert_api.py` instead returns `OK` and `VALUE` respectively,
by skipping length-2 lines and stripping the final CRLF. -/
theorem framing_amended :
    get_re (String.toList "\r\n\r\nOK\r\n") = .noResponse ∧
    get_re (String.toList "VALUE\r\nOK\r\n") = .line "VALUEOK" ∧
    command_scalar (String.toList "\r\n\r\nOK\r\n") = String.toList "OK" ∧
    command_scalar (String.toList "VALUE\r\nOK\r\n") = String.toList "VALUE" := by
  decide

/-- Claim C4: with the 3rd stream line equal to `ERROR\r\n` in a 5-point
request, the loop keeps the 2 previously parsed points, but the dedicated
`ERROR` branch is never taken — `x in ['ERROR']` compares bytes with a
string (and `x` still carries its CRLF), so the run dies in the comma-split
with an uncaught `ValueError`, `re_off` is not issued and `in_sampling`
stays set. -/
theorem error_line_bug :
    (re_sample false 5 devC4 none).outcome = .parseError ∧
    (re_sample false 5 devC4 none).outcome ≠ .errorBranch ∧
    (re_sample false 5 devC4 none).samples.length = 2 ∧
    (re_sample false 5 devC4 none).offIssued = false ∧
    (re_sample false 5 devC4 none).inSamplingAfter = true := by decide

/-- Claim C5: an `OK\r\n` line arriving before the requested count does not
end the stream normally — `x[0:2] == 'OK'` compares bytes with a string and
the `done` local it would set is never read, so the `OK` line falls through
to the comma-split and raises an uncaught `ValueError`; only the 1 point
read before it was stored, and `re_off` is skipped. -/
theorem early_ok_bug :
    (re_sample false 3 devC5 none).outcome = .parseError ∧
    isRaised (re_sample false 3 devC5 none).outcome = true ∧
    (re_sample false 3 devC5 none).samples.length = 1 ∧
    (re_sample false 3 devC5 none).offIssued = false := by decide

/-- Claim C6: a malformed stream line makes `re_sample` die in the
comma-split with an uncaught `ValueError`: `power_off` is not issued and
`in_sampling` stays `True`, so the session is not reusable — while the
deliberate failure paths (setup-command rejection) and the normal path of a
multi-point sweep do run `re_off` and clear the busy flag.  Cancellation is
not safe either: a sweep cancelled at iteration 1 leaves `rtl` empty, so
the post-loop `np.fft.ifft` raises `ValueError` and `power_off` is skipped
on that path too (with the busy flag already cleared). -/
theorem cleanup_bug :
    ((re_sample false 0 devC6 none).outcome = .parseError ∧
      (re_sample false 0 devC6 none).offIssued = false ∧
      (re_sample false 0 devC6 none).inSamplingAfter = true) ∧
    ((re_sample false 0 devC6b none).outcome = .setupFailed "frequency" ∧
      (re_sample false 0 devC6b none).offIssued = true ∧
      (re_sample false 0 devC6b none).inSamplingAfter = false) ∧
    ((re_sample false 1 devC6c none).outcome = .done ∧
      (re_sample false 1 devC6c none).offIssued = true) ∧
    ((re_sample false 1 devC6c (some 1)).outcome = .tdrError ∧
      (re_sample false 1 devC6c (some 1)).offIssued = false ∧
      (re_sample false 1 devC6c (some 1)).inSamplingAfter = false) := by decide

/-- Claim C9, counterexample: a sweep requested while `in_sampling` is set
is not rejected with an error — `re_sample` returns immediately with no
exception raised for the caller and no command written to the transport. -/
theorem busy_cx :
    (re_sample true 0 devC9 none).outcome = .ignored ∧
    isRaised (re_sample true 0 devC9 none).outcome = false ∧
    (re_sample true 0 devC9 none).sent = [] := by decide

/-- Claim C9, amended: a sweep requested while another is in flight on the
session is ignored immediately — `re_sample` returns `None` without writing
or reading the transport, without queuing, and without raising any error. -/
theorem busy_amended (nfreq : Nat) (dev : Device) (cancelAt : Option Nat) :
    re_sample true nfreq dev cancelAt = ⟨.ignored, [], false, true, []⟩ := rfl

/-- Claim C10: the framer read does not always terminate.  If the transport
delivers the single byte `A` and then yields nothing (every further
`read(1)` returns empty after its timeout), `get_re` never returns no matter
how many loop iterations it is allowed — the `len(buf) == 0` device-absent
check can only fire on the very first read, and each timed-out iteration
re-examines the stale last byte and appends it to the payload again.
`_readline`, in contrast, terminates on a silent transport, returning the
partial line with no error. -/
theorem framer_hang_bug :
    (∀ fuel, getReRun fuel (getReInit (String.toList "A")) = .outOfFuel) ∧
    readline (String.toList "A") = (String.toList "A", []) := by
  constructor
  · intro fuel
    cases fuel with
    | zero => rfl
    | succ n =>
      have h : getReRun (n + 1) (getReInit (String.toList "A")) =
          getReRun n ⟨[], ['A'], ['A'], 0⟩ := rfl
      rw [h]
      exact getReRun_stuck n ['A']
  · rfl

/-- Claim C2: for every impedance `z` whose reflection coefficient
`rho = |z - z0| / |z + z0|` satisfies `|rho - 1| < 1e-3`, the loop of
`compute_swr_and_return_loss` substitutes `rho = 1e-3` before the SWR
quotient, so the SWR denominator `1 - rho` is `1 - 1e-3`, which is not
zero.  The `np.abs((z - z0)/(z + z0))` computed by the code equals the
claim's quotient of absolute values. -/
theorem clamp_law (z z0 : ℂ)
    (h : |reflection_coefficient z z0 - 1| < 1e-3) :
    reflection_coefficient z z0 = Complex.abs (z - z0) / Complex.abs (z + z0) ∧
    clampRho (reflection_coefficient z z0) = 1e-3 ∧
    swr (clampRho (reflection_coefficient z z0)) = (1 + 1e-3) / (1 - 1e-3) ∧
    1 - clampRho (reflection_coefficient z z0) ≠ 0 := by
  have hc : clampRho (reflection_coefficient z z0) = 1e-3 := by
    unfold clampRho
    rw [if_pos h]
  refine ⟨rho_div z z0, hc, ?_, ?_⟩
  · rw [hc]
    unfold swr
    rfl
  · rw [hc]
    norm_num

/-- Claim C2, witness at the purely resistive impedance `z = 100000`,
`z0 = 50`, whose reflection coefficient `99950 / 100050` is within `1e-3`
of 1. -/
theorem clamp_law_wit :
    |reflection_coefficient 100000 50 - 1| < 1e-3 ∧
    (clampRho (reflection_coefficient 100000 50) = 1e-3 ∧
      1 - clampRho (reflection_coefficient 100000 50) ≠ 0) := by
  have h1 : ((100000 : ℂ) - 50) = ((99950 : ℝ) : ℂ) := by push_cast; norm_num
  have h2 : ((100000 : ℂ) + 50) = ((100050 : ℝ) : ℂ) := by push_cast; norm_num
  have hval : reflection_coefficient 100000 50 = 99950 / 100050 := by
    rw [rho_div, h1, h2, Complex.abs_ofReal, Complex.abs_ofReal]
    rw [abs_of_nonneg (by norm_num), abs_of_nonneg (by norm_num)]
  have h : |reflection_coefficient 100000 50 - 1| < 1e-3 := by
    rw [hval, abs_lt]
    constructor <;> norm_num
  have hmain := clamp_law 100000 50 h
  exact ⟨h, hmain.2.1, hmain.2.2.2⟩

/-- Claim C7, counterexample: at the matched load `z = z0 = 50` the
reflection coefficient is `0`, and the `1e-3` clamp does not apply —
`|0 - 1| = 1` is not below `1e-3`, so the value fed to
`20 * log10(rho)` is `0` (the singular point of `log10`, `-inf` in
floating point), not the claimed finite clamped floor `1e-3`. -/
theorem matched_load_cx :
    reflection_coefficient 50 50 = 0 ∧
    clampRho (reflection_coefficient 50 50) = 0 ∧
    clampRho (reflection_coefficient 50 50) ≠ 1e-3 := by
  have h : reflection_coefficient 50 50 = 0 := by
    unfold reflection_coefficient
    simp
  refine ⟨h, ?_, ?_⟩
  · rw [h, clampRho_zero]
  · rw [h, clampRho_zero]
    norm_num

/-- Claim C7, amended: for the matched load `z = z0` the metrics pipeline
yields `rho = 0` and `swr = 1`; the `1e-3` clamp only fires when
`|rho - 1| < 1e-3` (the SWR singularity), so it leaves `rho = 0` unchanged
and `return_loss_db` is evaluated at `0`, the unclamped singular point of
`log10` (`-inf` in floating point), not at a clamped floor. -/
theorem matched_load_amended (z0 : ℂ) :
    reflection_coefficient z0 z0 = 0 ∧
    clampRho (reflection_coefficient z0 z0) = reflection_coefficient z0 z0 ∧
    swr (clampRho (reflection_coefficient z0 z0)) = 1 ∧
    return_loss_db (clampRho (reflection_coefficient z0 z0)) =
      20 * Real.logb 10 0 := by
  have h : reflection_coefficient z0 z0 = 0 := by
    unfold reflection_coefficient
    simp
  refine ⟨h, ?_, ?_, ?_⟩
  · rw [h, clampRho_zero]
  · rw [h, clampRho_zero]
    unfold swr
    norm_num
  · rw [h, clampRho_zero]
    unfold return_loss_db
    rfl

/-- Claim C8: `compute_tdr` returns exactly the two sequences the spec
describes — the delays are the pointwise reciprocals `1 / frequency_hz[i]`
of the frequency axis (not a uniform time grid), and the amplitudes are the
real components of the inverse Fourier transform of the accumulated
return-loss series. -/
theorem tdr_refinement (fr rtl : List ℝ) :
    compute_tdr fr rtl = (tdrDelays_spec fr, tdrAmplitudes_spec rtl) := rfl
